import Mathlib

/-!
Verification of the sidebar-server ingestion pipeline.

This file gives a shallow embedding, in Lean 4, of the core logic of the
sidebar-server repository (Go): the similarity matcher and suggestion linking
(`findSuggestionsByContent`, `updateSuggestionMsgID`, `linkSuggestionToMessage`),
the per-session polling state machine (`handleSetPollInterval`, the interval
update branch of `startPolling`, `pollChatMessages`), the process-wide
credential cache (`getAccessToken`, `getJSAPITicket`), and the connection
registry (`WeComHub.Run`, `WeComClient.SendMessage`).

Modelling conventions:
* Go `time.Time`/`time.Duration` values are integers (nanoseconds, except the
  credential cache which works in whole seconds, matching the Go code that
  only ever adds whole seconds).
* JSON numbers (Go `float64`) are rationals `ℚ`; the Go conversion
  `time.Duration(f)` truncates toward zero and is modelled by `truncToInt`.
* Database state is a list of rows; a GORM `Updates ... Where` call is a
  `List.map` over the rows.
* The floating-point cosine-similarity scalar computed by
  `calculateCosineSimilarity`'s vector arithmetic is IEEE float math and is
  not exactly embeddable; it is abstracted as a parameter `cos` of the
  matcher definitions.  The branch structure around it (exact-match
  short-circuits, threshold filtering, sorting, truncation) is translated
  from the source.
* Channels are queues: a buffered channel of capacity `n` accepts a
  non-blocking send iff it holds fewer than `n` elements.
-/

namespace SidebarServer

/-! ## Similarity matcher (suggestion store file, `findSuggestionsByContent`) -/

/-- Match type discriminator, source strings `"exact_original"`,
`"exact_edited"`, `"similar"`. -/
inductive MatchType where
  | exactOriginal
  | exactEdited
  | similar
deriving DecidableEq, Repr

/-- A persisted suggestion row (`Suggestion` model in the store file).
`createdAt` is a unix timestamp. -/
structure Suggestion where
  suggestionID : String
  agentID : String
  chatID : String
  msgID : String
  originalContent : String
  editedContent : String
  similarity : ℚ
  createdAt : ℤ
deriving DecidableEq, Repr

/-- A matched suggestion with its computed similarity and match type
(`MatchedSuggestion` in the store file). -/
structure MatchedSuggestion where
  sug : Suggestion
  similarity : ℚ
  matchType : MatchType
deriving DecidableEq, Repr

/-- Per-candidate scoring, the body of the loop in `findSuggestionsByContent`:
exact match on `original_content` scores 100 / exact-original; exact match on
`edited_content` scores `cos(edited, original)` (100 when no original) /
exact-edited; otherwise `cos(content, original)` / similar, skipping
candidates with empty `original_content`.  `cos` abstracts the
floating-point cosine similarity scalar. -/
def scoreSuggestion (cos : String → String → ℚ) (content : String)
    (s : Suggestion) : Option (ℚ × MatchType) :=
  if s.originalContent = content then
    some (100, MatchType.exactOriginal)
  else if s.editedContent = content then
    if s.originalContent ≠ "" then
      some (cos s.editedContent s.originalContent, MatchType.exactEdited)
    else
      some (100, MatchType.exactEdited)
  else if s.originalContent ≠ "" then
    some (cos content s.originalContent, MatchType.similar)
  else
    none

/-- Row predicate of the GORM query
`agent_id = ? AND chat_id = ? AND created_at < ?`. -/
def queryPred (agentID chatID : String) (beforeTime : ℤ) (s : Suggestion) : Bool :=
  s.agentID = agentID && s.chatID = chatID && decide (s.createdAt < beforeTime)

/-- Ordering used by `Order("created_at DESC")`: later rows first. -/
def createdDesc (s t : Suggestion) : Prop := t.createdAt ≤ s.createdAt

instance : DecidableRel createdDesc := fun s t => by
  unfold createdDesc; infer_instance

instance : IsTotal Suggestion createdDesc :=
  ⟨fun s t => le_total t.createdAt s.createdAt⟩

instance : IsTrans Suggestion createdDesc :=
  ⟨fun _ _ _ h h' => le_trans h' h⟩

/-- The database fetch in `findSuggestionsByContent`: matching rows, most
recent first, limited to `limit * 2` to allow post-filtering. -/
def suggestionQuery (rows : List Suggestion) (agentID chatID : String)
    (beforeTime : ℤ) (limit : ℕ) : List Suggestion :=
  ((rows.filter (queryPred agentID chatID beforeTime)).insertionSort
    createdDesc).take (limit * 2)

/-- Sort order of the matched list produced by `sort.Slice` in
`findSuggestionsByContent`: similarity descending, ties broken by
`created_at` descending (most recent first).  This is the complement
`¬ less(b, a)` of the Go comparator. -/
def matchedBefore (a b : MatchedSuggestion) : Prop :=
  b.similarity < a.similarity ∨
    (a.similarity = b.similarity ∧ b.sug.createdAt ≤ a.sug.createdAt)

instance : DecidableRel matchedBefore := fun a b => by
  unfold matchedBefore; infer_instance

instance : IsTotal MatchedSuggestion matchedBefore := by
  constructor
  intro a b
  unfold matchedBefore
  rcases lt_trichotomy a.similarity b.similarity with h | h | h
  · exact Or.inr (Or.inl h)
  · rcases le_total b.sug.createdAt a.sug.createdAt with h' | h'
    · exact Or.inl (Or.inr ⟨h, h'⟩)
    · exact Or.inr (Or.inr ⟨h.symm, h'⟩)
  · exact Or.inl (Or.inl h)

instance : IsTrans MatchedSuggestion matchedBefore := by
  constructor
  intro a b c hab hbc
  unfold matchedBefore at *
  rcases hab with hab | ⟨hab, hab'⟩
  · rcases hbc with hbc | ⟨hbc, _⟩
    · exact Or.inl (lt_trans hbc hab)
    · exact Or.inl (hbc ▸ hab)
  · rcases hbc with hbc | ⟨hbc, hbc'⟩
    · exact Or.inl (hab ▸ hbc)
    · exact Or.inr ⟨hab.trans hbc, le_trans hbc' hab'⟩

/-- `findSuggestionsByContent`: query candidate rows, score each, keep those
with similarity at or above the threshold, sort by similarity descending with
most-recent-first ties, truncate to `limit`. -/
def findSuggestionsByContent (cos : String → String → ℚ)
    (rows : List Suggestion) (agentID chatID content : String)
    (beforeTime : ℤ) (limit : ℕ) (threshold : ℚ) : List MatchedSuggestion :=
  let sugs := suggestionQuery rows agentID chatID beforeTime limit
  let matched := sugs.filterMap (fun s =>
    (scoreSuggestion cos content s).bind (fun p =>
      if threshold ≤ p.1 then some ⟨s, p.1, p.2⟩ else none))
  ((matched.insertionSort matchedBefore).take limit)

/-- Default similarity threshold (`SUGGESTION_SIMILARITY_THRESHOLD` unset). -/
def defaultSimilarityThreshold : ℚ := 80

/-- `updateSuggestionMsgID`: set `msg_id` and `similarity` on the row with
the given `suggestion_id`. -/
def updateSuggestionMsgID (rows : List Suggestion) (suggestionID msgID : String)
    (similarity : ℚ) : List Suggestion :=
  rows.map (fun s =>
    if s.suggestionID = suggestionID then
      { s with msgID := msgID, similarity := similarity }
    else s)

/-- `linkSuggestionToMessage`: query-and-score, then update the top match's
row; no candidates means no update. -/
def linkSuggestionToMessage (cos : String → String → ℚ)
    (rows : List Suggestion) (agentID chatID msgID content : String)
    (msgTime : ℤ) (limit : ℕ) (threshold : ℚ) : List Suggestion :=
  match findSuggestionsByContent cos rows agentID chatID content msgTime
      limit threshold with
  | [] => rows
  | top :: _ => updateSuggestionMsgID rows top.sug.suggestionID msgID top.similarity

/-- Every element of the matched list came through the threshold filter. -/
theorem mem_findSuggestionsByContent {cos rows agentID chatID content
    beforeTime limit threshold} {m : MatchedSuggestion}
    (hm : m ∈ findSuggestionsByContent cos rows agentID chatID content
      beforeTime limit threshold) :
    ∃ s ∈ suggestionQuery rows agentID chatID beforeTime limit,
      ∃ p, scoreSuggestion cos content s = some p ∧ threshold ≤ p.1 ∧
        m = ⟨s, p.1, p.2⟩ := by
  unfold findSuggestionsByContent at hm
  have hm1 := List.take_subset _ _ hm
  have hm2 := (List.mem_insertionSort matchedBefore).mp hm1
  obtain ⟨s, hs, hfs⟩ := List.mem_filterMap.mp hm2
  obtain ⟨p, hp, hif⟩ := Option.bind_eq_some.mp hfs
  by_cases hth : threshold ≤ p.1
  · refine ⟨s, hs, p, hp, hth, ?_⟩
    rw [if_pos hth] at hif
    exact (Option.some_inj.mp hif).symm
  · rw [if_neg hth] at hif
    cases hif

/-- C4 (confirmed): candidates scoring below the threshold are discarded, the
remaining ones are ordered by similarity descending with ties broken
most-recent-first and truncated to the query limit; `linkSuggestionToMessage`
updates the top candidate's row with the message id and its similarity, and
performs no update when no candidate reaches the threshold. -/
theorem C4_matcher_selection_and_link (cos : String → String → ℚ)
    (rows : List Suggestion) (agentID chatID content msgID : String)
    (beforeTime : ℤ) (limit : ℕ) (threshold : ℚ) :
    (∀ m ∈ findSuggestionsByContent cos rows agentID chatID content
        beforeTime limit threshold, threshold ≤ m.similarity) ∧
    List.Sorted matchedBefore (findSuggestionsByContent cos rows agentID
      chatID content beforeTime limit threshold) ∧
    (findSuggestionsByContent cos rows agentID chatID content beforeTime
      limit threshold).length ≤ limit ∧
    (findSuggestionsByContent cos rows agentID chatID content beforeTime
        limit threshold = [] →
      linkSuggestionToMessage cos rows agentID chatID msgID content
        beforeTime limit threshold = rows) ∧
    (∀ top rest, findSuggestionsByContent cos rows agentID chatID content
        beforeTime limit threshold = top :: rest →
      linkSuggestionToMessage cos rows agentID chatID msgID content
          beforeTime limit threshold =
        updateSuggestionMsgID rows top.sug.suggestionID msgID top.similarity) := by
  refine ⟨?_, ?_, ?_, ?_, ?_⟩
  · intro m hm
    obtain ⟨s, _, p, _, hth, hmeq⟩ := mem_findSuggestionsByContent hm
    rw [hmeq]
    exact hth
  · exact (List.sorted_insertionSort matchedBefore _).sublist
      (List.take_sublist _ _)
  · unfold findSuggestionsByContent
    exact List.length_take_le _ _
  · intro h
    unfold linkSuggestionToMessage
    rw [h]
  · intro top rest h
    unfold linkSuggestionToMessage
    rw [h]

/-- Concrete row used by the matcher witnesses. -/
def witnessRow : Suggestion :=
  { suggestionID := "s1", agentID := "a", chatID := "c", msgID := "",
    originalContent := "hello", editedContent := "", similarity := 0,
    createdAt := 5 }

/-- Witness for C4 at a concrete store: one exact-original candidate passes
the default threshold and its row receives the message id and similarity. -/
theorem C4_matcher_selection_and_link_witness :
    (∀ m ∈ findSuggestionsByContent (fun _ _ => 0) [witnessRow] "a" "c"
        "hello" 10 10 80, (80 : ℚ) ≤ m.similarity) ∧
    linkSuggestionToMessage (fun _ _ => 0) [witnessRow] "a" "c" "m1" "hello"
        10 10 80 = updateSuggestionMsgID [witnessRow] "s1" "m1" 100 := by
  constructor
  · exact (C4_matcher_selection_and_link (fun _ _ => 0) [witnessRow] "a" "c"
      "hello" "m1" 10 10 80).1
  · exact (C4_matcher_selection_and_link (fun _ _ => 0) [witnessRow] "a" "c"
      "hello" "m1" 10 10 80).2.2.2.2 ⟨witnessRow, 100, MatchType.exactOriginal⟩
      [] (by decide)

/-- C5 (confirmed): a candidate whose `original_content` equals the sent
message text is scored 100 with match type exact-original, regardless of the
cosine scorer, both at the per-candidate scoring step and in the matcher's
returned list. -/
theorem C5_exact_original_match (cos : String → String → ℚ)
    (rows : List Suggestion) (agentID chatID content : String)
    (beforeTime : ℤ) (limit : ℕ) (threshold : ℚ) :
    (∀ s : Suggestion, s.originalContent = content →
      scoreSuggestion cos content s = some (100, MatchType.exactOriginal)) ∧
    (∀ m ∈ findSuggestionsByContent cos rows agentID chatID content
        beforeTime limit threshold, m.sug.originalContent = content →
      m.similarity = 100 ∧ m.matchType = MatchType.exactOriginal) := by
  constructor
  · intro s hs
    unfold scoreSuggestion
    rw [if_pos hs]
  · intro m hm horig
    obtain ⟨s, _, p, hp, _, hmeq⟩ := mem_findSuggestionsByContent hm
    have hsorig : s.originalContent = content := by
      rw [hmeq] at horig
      exact horig
    unfold scoreSuggestion at hp
    rw [if_pos hsorig] at hp
    have hpeq : p = (100, MatchType.exactOriginal) := Option.some_inj.mp hp.symm
    rw [hmeq, hpeq]
    exact ⟨rfl, rfl⟩

/-- Witness for C5: the concrete exact-original candidate from the witness
store is returned with similarity 100 and match type exact-original. -/
theorem C5_exact_original_match_witness :
    scoreSuggestion (fun _ _ => 0) "hello" witnessRow =
      some (100, MatchType.exactOriginal) ∧
    ((⟨witnessRow, 100, MatchType.exactOriginal⟩ : MatchedSuggestion).similarity
        = 100 ∧
      (⟨witnessRow, 100, MatchType.exactOriginal⟩ :
        MatchedSuggestion).matchType = MatchType.exactOriginal) := by
  constructor
  · exact (C5_exact_original_match (fun _ _ => 0) [witnessRow] "a" "c" "hello"
      10 10 80).1 witnessRow rfl
  · exact (C5_exact_original_match (fun _ _ => 0) [witnessRow] "a" "c" "hello"
      10 10 80).2 ⟨witnessRow, 100, MatchType.exactOriginal⟩ (by decide) rfl

/-! ## Poll interval handling (`handleSetPollInterval` / `startPolling`) -/

/-- One nanosecond-denominated second (`time.Second`). -/
def nsPerSecond : ℤ := 1000000000

/-- One nanosecond-denominated hour (`time.Hour`). -/
def nsPerHour : ℤ := 3600 * nsPerSecond

/-- Go's `time.Duration(f)` conversion from `float64`: truncation toward
zero. -/
def truncToInt (q : ℚ) : ℤ := if 0 ≤ q then ⌊q⌋ else -⌊-q⌋

/-- Parse outcome of a `set_poll_interval` frame's `content`: unparseable
JSON, missing/non-numeric `interval` field, or a numeric interval in
seconds. -/
inductive SetIntervalContent where
  | badJson
  | missingInterval
  | intervalSec (q : ℚ)
deriving DecidableEq, Repr

/-- Event pushed back to the agent on the interval paths. -/
inductive PollEvent where
  | pollIntervalUpdated (pollInterval : ℚ) (deferred : Bool)
  | pollIntervalError
deriving DecidableEq, Repr

/-- The interval-related session state: current poll interval (ns), whether
the poller is running (`weworkSDK != nil`), and the contents of the
capacity-1 `pollIntervalCh` channel. -/
structure SessionPollState where
  pollInterval : ℤ
  polling : Bool
  pendingInterval : Option ℤ
deriving DecidableEq, Repr

/-- `handleSetPollInterval`: validate the requested interval, reject values
whose truncated duration falls outside [1s, 1h]; when the poller is not
running store the interval directly and confirm with the raw requested
seconds; otherwise enqueue the new interval on the capacity-1 channel
(replying with an error when it is full). -/
def handleSetPollInterval (st : SessionPollState) (content : SetIntervalContent) :
    SessionPollState × List PollEvent :=
  match content with
  | SetIntervalContent.badJson => (st, [PollEvent.pollIntervalError])
  | SetIntervalContent.missingInterval => (st, [PollEvent.pollIntervalError])
  | SetIntervalContent.intervalSec q =>
    let newInterval := truncToInt q * nsPerSecond
    if newInterval < nsPerSecond then
      (st, [PollEvent.pollIntervalError])
    else if nsPerHour < newInterval then
      (st, [PollEvent.pollIntervalError])
    else if st.polling = false then
      ({ st with pollInterval := newInterval },
        [PollEvent.pollIntervalUpdated q true])
    else
      match st.pendingInterval with
      | none => ({ st with pendingInterval := some newInterval }, [])
      | some _ => (st, [PollEvent.pollIntervalError])

/-- The `newInterval := <-c.pollIntervalCh` branch of the polling loop in
`startPolling`: adopt the pending interval and confirm, naming
`float64(newInterval) / float64(time.Second)`. -/
def pollLoopIntervalStep (st : SessionPollState) :
    SessionPollState × List PollEvent :=
  match st.pendingInterval with
  | some d =>
    ({ st with pollInterval := d, pendingInterval := none },
      [PollEvent.pollIntervalUpdated ((d : ℚ) / (nsPerSecond : ℚ)) false])
  | none => (st, [])

/-- A `set_poll_interval` request followed by the polling loop consuming any
enqueued interval change. -/
def setPollIntervalRoundTrip (st : SessionPollState)
    (content : SetIntervalContent) : SessionPollState × List PollEvent :=
  let r1 := handleSetPollInterval st content
  let r2 := pollLoopIntervalStep r1.1
  (r2.1, r1.2 ++ r2.2)

/-- C3 fails as stated: the request value 1.5 s lies in [1 s, 1 h], but the
handler truncates it to 1 s, so the active poll period is not set to the
requested value and the confirmation names 1, not 1.5. -/
theorem C3_counterexample :
    ((1 : ℚ) ≤ 3 / 2 ∧ (3 / 2 : ℚ) ≤ 3600) ∧
    (setPollIntervalRoundTrip ⟨5 * nsPerSecond, true, none⟩
        (SetIntervalContent.intervalSec (3 / 2))).1.pollInterval
      = 1000000000 ∧
    (1000000000 : ℤ) ≠ 1500000000 ∧
    (setPollIntervalRoundTrip ⟨5 * nsPerSecond, true, none⟩
        (SetIntervalContent.intervalSec (3 / 2))).2
      = [PollEvent.pollIntervalUpdated 1 false] ∧
    (1 : ℚ) ≠ 3 / 2 := by
  have htr : truncToInt (3 / 2 : ℚ) = 1 := by
    unfold truncToInt
    rw [if_pos (by norm_num)]
    rw [Int.floor_eq_iff]
    constructor <;> norm_num
  have hmain : setPollIntervalRoundTrip ⟨5 * nsPerSecond, true, none⟩
      (SetIntervalContent.intervalSec (3 / 2))
      = (⟨1000000000, true, none⟩, [PollEvent.pollIntervalUpdated 1 false]) := by
    simp only [setPollIntervalRoundTrip, handleSetPollInterval,
      pollLoopIntervalStep, htr]
    norm_num [nsPerSecond, nsPerHour]
  refine ⟨by norm_num, ?_, by decide, ?_, by norm_num⟩
  · rw [hmain]
  · rw [hmain]

/-- C3 (amended): the requested seconds value is truncated toward zero to a
whole number of seconds before validation.  If the truncated value lies in
[1, 3600] the poll interval becomes exactly that many seconds and a
`poll_interval_updated` event names it (the raw requested value when the
poller has not started); if the truncated value is outside [1, 3600] the
state is unchanged and a `poll_interval_error` event is emitted.  Assumes the
capacity-1 update channel is empty. -/
theorem C3_interval_update (st : SessionPollState) (q : ℚ)
    (hpend : st.pendingInterval = none) :
    (1 ≤ truncToInt q → truncToInt q ≤ 3600 →
      (setPollIntervalRoundTrip st (SetIntervalContent.intervalSec q)).1.pollInterval
          = truncToInt q * nsPerSecond ∧
        (setPollIntervalRoundTrip st
          (SetIntervalContent.intervalSec q)).1.pendingInterval = none ∧
        (setPollIntervalRoundTrip st (SetIntervalContent.intervalSec q)).2
          = if st.polling then
              [PollEvent.pollIntervalUpdated ((truncToInt q : ℤ) : ℚ) false]
            else [PollEvent.pollIntervalUpdated q true]) ∧
    (truncToInt q < 1 ∨ 3600 < truncToInt q →
      (setPollIntervalRoundTrip st (SetIntervalContent.intervalSec q)).1 = st ∧
        (setPollIntervalRoundTrip st (SetIntervalContent.intervalSec q)).2
          = [PollEvent.pollIntervalError]) := by
  have hpos : (0 : ℤ) < nsPerSecond := by decide
  have hlow : truncToInt q * nsPerSecond < nsPerSecond ↔ truncToInt q < 1 := by
    constructor
    · intro h
      by_contra hc
      push_neg at hc
      have := mul_le_mul_of_nonneg_right hc (le_of_lt hpos)
      rw [one_mul] at this
      omega
    · intro h
      have h1 : truncToInt q ≤ 0 := by omega
      have := mul_le_mul_of_nonneg_right h1 (le_of_lt hpos)
      rw [zero_mul] at this
      omega
  have hhigh : nsPerHour < truncToInt q * nsPerSecond ↔ 3600 < truncToInt q := by
    unfold nsPerHour
    constructor
    · intro h
      by_contra hc
      push_neg at hc
      have := mul_le_mul_of_nonneg_right hc (le_of_lt hpos)
      omega
    · intro h
      have h1 : 3601 ≤ truncToInt q := by omega
      have := mul_le_mul_of_nonneg_right h1 (le_of_lt hpos)
      have h2 : (0 : ℤ) < nsPerSecond := hpos
      nlinarith
  constructor
  · intro h1 h2
    have hn1 : ¬ truncToInt q * nsPerSecond < nsPerSecond := by
      rw [hlow]; omega
    have hn2 : ¬ nsPerHour < truncToInt q * nsPerSecond := by
      rw [hhigh]; omega
    unfold setPollIntervalRoundTrip handleSetPollInterval
    cases hp : st.polling with
    | false =>
      simp only [hp, hpend, pollLoopIntervalStep, if_neg hn1, if_neg hn2,
        if_pos rfl]
      simp
    | true =>
      have hcast : ((truncToInt q * nsPerSecond : ℤ) : ℚ) / (nsPerSecond : ℚ)
          = ((truncToInt q : ℤ) : ℚ) := by
        push_cast
        rw [mul_div_assoc, div_self (by norm_num [nsPerSecond]), mul_one]
      simp only [hp, hpend, pollLoopIntervalStep, if_neg hn1, if_neg hn2]
      simp only [Bool.true_eq_false, if_false, hcast]
      simp
  · intro h
    unfold setPollIntervalRoundTrip handleSetPollInterval
    rcases h with h | h
    · have hy : truncToInt q * nsPerSecond < nsPerSecond := hlow.mpr h
      simp only [if_pos hy, pollLoopIntervalStep, hpend]
      simp
    · have hn1 : ¬ truncToInt q * nsPerSecond < nsPerSecond := by
        rw [hlow]; omega
      have hy : nsPerHour < truncToInt q * nsPerSecond := hhigh.mpr h
      simp only [if_neg hn1, if_pos hy, pollLoopIntervalStep, hpend]
      simp

/-- Witness for the amended C3: a running poller accepts a request of 7
seconds, the interval becomes exactly 7 s, and the confirmation names 7. -/
theorem C3_interval_update_witness :
    (setPollIntervalRoundTrip ⟨5 * nsPerSecond, true, none⟩
        (SetIntervalContent.intervalSec 7)).1.pollInterval = 7 * nsPerSecond ∧
    (setPollIntervalRoundTrip ⟨5 * nsPerSecond, true, none⟩
        (SetIntervalContent.intervalSec 7)).2
      = [PollEvent.pollIntervalUpdated 7 false] := by
  have h := (C3_interval_update ⟨5 * nsPerSecond, true, none⟩ 7 rfl).1
    (by decide) (by decide)
  refine ⟨?_, ?_⟩
  · rw [h.1]
    decide
  · rw [h.2.2]
    decide

/-! ## Poll cycle (`pollChatMessages` in the polling file) -/

/-- Outcome of the voice-message sub-pipeline for a `"voice"` entry: the
`voice` object or its `sdkfileid` missing (skip), the chunked download
failing (skip), or a transcription attempt that succeeded or failed. -/
inductive VoiceOutcome where
  | malformed
  | missingFileId
  | downloadFailed
  | transcribed (text : String)
  | transcribeFailed (err : String)
deriving DecidableEq, Repr

/-- Fields of the decrypted and JSON-parsed message used by the pipeline.
`raw` is the re-serialized JSON used when a text entry's `content` field is
not a string. -/
structure DecodedMsg where
  fromId : Option String
  msgtype : Option String
  content : Option String
  action : Option String
  raw : String
  voice : VoiceOutcome
deriving DecidableEq, Repr

/-- One element of the fetched `chatdata` array: its `seq` field, whether the
two encrypted fields are present, the result of decrypt-and-parse (`none` on
failure), and the outer `msgid`/`msgtime` fields. -/
structure ArchiveEntry where
  seqNum : Option ℕ
  hasEncRandomKey : Bool
  hasEncChatMsg : Bool
  decoded : Option DecodedMsg
  msgid : Option String
  msgtimeMs : Option ℤ
deriving DecidableEq, Repr

/-- A `chatdata` element that may fail the map type assertion. -/
inductive RawItem where
  | notMap
  | entry (e : ArchiveEntry)
deriving DecidableEq, Repr

/-- Result of one `GetChatData` fetch, mirroring the early-return chain of
`pollChatMessages`: transport error, empty payload, unparseable JSON, an API
error code, or a batch of records. -/
inductive FetchResult where
  | fetchErr
  | emptyData
  | parseErr
  | apiErr (errcode : ℤ)
  | chat (items : List RawItem)
deriving DecidableEq, Repr

/-- The own-message classifier of `pollChatMessages`: when `action` equals
`"send"` the `from` field must still equal the agent id; when there is no
(string) `action` field, the `from` field is compared with the agent id. -/
def isAgentMessage (agentID : String) (d : DecodedMsg) : Bool :=
  if d.action = some "send" then
    match d.fromId with
    | some f => f == agentID
    | none => false
  else
    match d.fromId with
    | some f => f == agentID
    | none => false

/-- Placeholder content produced when voice transcription fails
(`fmt.Sprintf` in the voice branch). -/
def voicePlaceholder (err : String) : String :=
  "[语音消息，转文本失败: " ++ err ++ "]"

/-- A message that survived decryption, the chat filter and the type switch.
`rawChatID` is the `from` value before defaulting to the session chat id
(the value passed to `linkSuggestionToMessage`); `chatID` is the grouping
key after defaulting. -/
structure ProcessedMsg where
  rawChatID : String
  chatID : String
  content : String
  msgID : String
  seqNum : ℕ
  msgTimeNs : ℤ
  isAgent : Bool
deriving DecidableEq, Repr

/-- Per-entry processing of `pollChatMessages` after the `seq` bookkeeping:
require both encrypted fields, decrypt and parse, drop messages of other
chats, resolve content by message type, and classify. -/
def processEntry (agentID sessionChatID : String) (now : ℤ)
    (e : ArchiveEntry) : Option ProcessedMsg :=
  if e.hasEncRandomKey = false ∨ e.hasEncChatMsg = false then none
  else
    match e.decoded with
    | none => none
    | some d =>
      let chatID0 := match d.fromId with | some f => f | none => ""
      if chatID0 ≠ "" ∧ chatID0 ≠ sessionChatID then none
      else
        match d.msgtype with
        | none => none
        | some mt =>
          let rContent : Option String :=
            if mt = "text" then
              some (match d.content with | some c => c | none => d.raw)
            else if mt = "voice" then
              match d.voice with
              | VoiceOutcome.malformed => none
              | VoiceOutcome.missingFileId => none
              | VoiceOutcome.downloadFailed => none
              | VoiceOutcome.transcribed t => some t
              | VoiceOutcome.transcribeFailed err => some (voicePlaceholder err)
            else none
          match rContent with
          | none => none
          | some content =>
            some { rawChatID := chatID0,
                   chatID := if chatID0 = "" then sessionChatID else chatID0,
                   content := content,
                   msgID := match e.msgid with | some i => i | none => "",
                   seqNum := match e.seqNum with | some s => s | none => 0,
                   msgTimeNs :=
                     match e.msgtimeMs with | some t => t * 1000000 | none => now,
                   isAgent := isAgentMessage agentID d }

/-- Arguments of the asynchronous `linkSuggestionToMessage` call made for a
candidate feedback message. -/
structure FeedbackItem where
  agentID : String
  chatID : String
  msgID : String
  content : String
  msgTimeNs : ℤ
deriving DecidableEq, Repr

/-- The condition and payload of the feedback dispatch in
`pollChatMessages`: the message is the agent's own, has a message id and
non-empty content, and the database is configured. -/
def feedbackOf (agentID : String) (dbReady : Bool) (p : ProcessedMsg) :
    Option FeedbackItem :=
  if p.isAgent = true ∧ p.msgID ≠ "" ∧ p.content ≠ "" ∧ dbReady = true then
    some ⟨agentID, p.rawChatID, p.msgID, p.content, p.msgTimeNs⟩
  else none

/-- Result of one poll cycle: the new cursor, the feedback candidates routed
to the matcher, and the processed messages aggregated for assistance. -/
structure PollOutcome where
  newSeq : ℕ
  feedback : List FeedbackItem
  processed : List ProcessedMsg
deriving DecidableEq, Repr

/-- The body of the `for _, msgItem := range chatdata` loop: update the
maximum sequence number first (so it also advances for entries that are
skipped later), then process the entry and record feedback and grouping. -/
def pollStep (agentID sessionChatID : String) (dbReady : Bool) (now : ℤ)
    (acc : PollOutcome) (it : RawItem) : PollOutcome :=
  match it with
  | RawItem.notMap => acc
  | RawItem.entry e =>
    let maxSeq := match e.seqNum with
      | some s => if acc.newSeq < s then s else acc.newSeq
      | none => acc.newSeq
    match processEntry agentID sessionChatID now e with
    | none => { acc with newSeq := maxSeq }
    | some p =>
      let fb := match feedbackOf agentID dbReady p with
        | some item => acc.feedback ++ [item]
        | none => acc.feedback
      { newSeq := maxSeq, feedback := fb, processed := acc.processed ++ [p] }

/-- `pollChatMessages` as one poll cycle over the fetch result, starting from
cursor `seq`.  All early-return branches leave the cursor unchanged. -/
def pollChatMessages (agentID sessionChatID : String) (dbReady : Bool)
    (now : ℤ) (seq : ℕ) (fr : FetchResult) : PollOutcome :=
  match fr with
  | FetchResult.chat items =>
    if items.isEmpty then ⟨seq, [], []⟩
    else items.foldl (pollStep agentID sessionChatID dbReady now) ⟨seq, [], []⟩
  | _ => ⟨seq, [], []⟩

/-- Contents of the per-conversation group for chat id `cid` built by the
`chatMessages` map. -/
def groupContent (o : PollOutcome) (cid : String) : List String :=
  (o.processed.filter (fun p => p.chatID == cid)).map (fun p => p.content)

/-- Aggregation of one group before dispatch: a single message verbatim,
several messages joined by newlines. -/
def aggregateGroup (msgs : List String) : String :=
  match msgs with
  | [m] => m
  | ms => String.intercalate "\n" ms

/-- The cursor value computed by the `seq` bookkeeping alone: the maximum of
the starting cursor and every `seq` field observed in the batch. -/
def batchMaxSeq (seq : ℕ) (items : List RawItem) : ℕ :=
  items.foldl (fun a it =>
    match it with
    | RawItem.notMap => a
    | RawItem.entry e =>
      match e.seqNum with
      | some s => if a < s then s else a
      | none => a) seq

/-- The `seq` fields present in a batch. -/
def observedSeqs (items : List RawItem) : List ℕ :=
  items.filterMap (fun it =>
    match it with
    | RawItem.notMap => none
    | RawItem.entry e => e.seqNum)

/-- Iterated poll cycles: the cursor after processing a list of fetch
results. -/
def pollManySeq (agentID sessionChatID : String) (dbReady : Bool) (now : ℤ)
    (seq : ℕ) (frs : List FetchResult) : ℕ :=
  frs.foldl (fun s fr =>
    (pollChatMessages agentID sessionChatID dbReady now s fr).newSeq) seq

/-- The per-item `seq` bookkeeping of the loop. -/
def seqStep (a : ℕ) (it : RawItem) : ℕ :=
  match it with
  | RawItem.notMap => a
  | RawItem.entry e =>
    match e.seqNum with
    | some s => if a < s then s else a
    | none => a

theorem batchMaxSeq_eq_foldl (seq : ℕ) (items : List RawItem) :
    batchMaxSeq seq items = items.foldl seqStep seq := rfl

theorem pollStep_newSeq (a c : String) (d : Bool) (n : ℤ) (acc : PollOutcome)
    (it : RawItem) : (pollStep a c d n acc it).newSeq = seqStep acc.newSeq it := by
  cases it with
  | notMap => rfl
  | entry e =>
    simp only [pollStep, seqStep]
    cases hp : processEntry a c n e
    · rfl
    · rfl

theorem foldl_pollStep_newSeq (a c : String) (d : Bool) (n : ℤ) :
    ∀ (items : List RawItem) (acc : PollOutcome),
      (items.foldl (pollStep a c d n) acc).newSeq = batchMaxSeq acc.newSeq items := by
  intro items
  induction items with
  | nil => intro acc; rfl
  | cons it rest ih =>
    intro acc
    rw [List.foldl_cons, ih, pollStep_newSeq, batchMaxSeq_eq_foldl,
      batchMaxSeq_eq_foldl, List.foldl_cons]

theorem le_seqStep (a : ℕ) (it : RawItem) : a ≤ seqStep a it := by
  cases it with
  | notMap => exact le_refl a
  | entry e =>
    cases h : e.seqNum with
    | none => simp [seqStep, h]
    | some s =>
      simp only [seqStep, h]
      by_cases hlt : a < s
      · rw [if_pos hlt]
        omega
      · rw [if_neg hlt]

theorem le_batchMaxSeq : ∀ (items : List RawItem) (seq : ℕ),
    seq ≤ batchMaxSeq seq items := by
  intro items
  induction items with
  | nil => intro seq; exact le_refl seq
  | cons it rest ih =>
    intro seq
    rw [batchMaxSeq_eq_foldl, List.foldl_cons, ← batchMaxSeq_eq_foldl]
    exact le_trans (le_seqStep seq it) (ih _)

theorem batchMaxSeq_eq_max_fold : ∀ (items : List RawItem) (seq : ℕ),
    batchMaxSeq seq items = (observedSeqs items).foldl Nat.max seq := by
  intro items
  induction items with
  | nil => intro seq; rfl
  | cons it rest ih =>
    intro seq
    rw [batchMaxSeq_eq_foldl, List.foldl_cons, ← batchMaxSeq_eq_foldl, ih]
    cases it with
    | notMap => rfl
    | entry e =>
      cases hs : e.seqNum with
      | none => simp [observedSeqs, List.filterMap_cons, hs, seqStep]
      | some s =>
        simp only [observedSeqs, List.filterMap_cons, hs, List.foldl_cons,
          seqStep]
        congr 1
        by_cases h : seq < s
        · rw [if_pos h]
          exact (Nat.max_eq_right (le_of_lt h)).symm
        · rw [if_neg h]
          exact (Nat.max_eq_left (Nat.le_of_not_lt h)).symm

theorem le_foldl_max : ∀ (l : List ℕ) (a : ℕ), a ≤ l.foldl Nat.max a := by
  intro l
  induction l with
  | nil => intro a; exact le_refl a
  | cons x rest ih =>
    intro a
    exact le_trans (Nat.le_max_left a x) (ih _)

theorem mem_le_foldl_max : ∀ (l : List ℕ) (a x : ℕ), x ∈ l →
    x ≤ l.foldl Nat.max a := by
  intro l
  induction l with
  | nil => intro a x hx; cases hx
  | cons y rest ih =>
    intro a x hx
    rcases List.mem_cons.mp hx with h | h
    · subst h
      exact le_trans (Nat.le_max_right a x) (le_foldl_max rest _)
    · exact ih _ x h

theorem foldl_max_le : ∀ (l : List ℕ) (a b : ℕ), a ≤ b → (∀ x ∈ l, x ≤ b) →
    l.foldl Nat.max a ≤ b := by
  intro l
  induction l with
  | nil => intro a b ha _; exact ha
  | cons y rest ih =>
    intro a b ha hl
    exact ih _ b (Nat.max_le.mpr ⟨ha, hl y (List.mem_cons_self y rest)⟩)
      fun x hx => hl x (List.mem_cons_of_mem y hx)

theorem poll_newSeq_chat (agentID sessionChatID : String) (dbReady : Bool)
    (now : ℤ) (seq : ℕ) (items : List RawItem) :
    (pollChatMessages agentID sessionChatID dbReady now seq
      (FetchResult.chat items)).newSeq = batchMaxSeq seq items := by
  by_cases hi : items.isEmpty
  · simp only [pollChatMessages, if_pos hi]
    rw [List.isEmpty_iff.mp hi]
    rfl
  · simp only [pollChatMessages, if_neg hi]
    exact foldl_pollStep_newSeq _ _ _ _ items ⟨seq, [], []⟩

theorem le_poll_newSeq (agentID sessionChatID : String) (dbReady : Bool)
    (now : ℤ) (seq : ℕ) (fr : FetchResult) :
    seq ≤ (pollChatMessages agentID sessionChatID dbReady now seq fr).newSeq := by
  cases fr with
  | chat items =>
    rw [poll_newSeq_chat]
    exact le_batchMaxSeq items seq
  | fetchErr => exact le_refl seq
  | emptyData => exact le_refl seq
  | parseErr => exact le_refl seq
  | apiErr e => exact le_refl seq

theorem le_pollManySeq (agentID sessionChatID : String) (dbReady : Bool)
    (now : ℤ) : ∀ (frs : List FetchResult) (seq : ℕ),
    seq ≤ pollManySeq agentID sessionChatID dbReady now seq frs := by
  intro frs
  induction frs with
  | nil => intro seq; exact le_refl seq
  | cons fr rest ih =>
    intro seq
    exact le_trans (le_poll_newSeq agentID sessionChatID dbReady now seq fr)
      (ih _)

/-- C2 (confirmed): the poll cursor never decreases, a batch advances it to
the maximum of the starting cursor and every `seq` field observed in the
batch — a value independent of whether entries decrypt or survive the
filters — and across any sequence of poll cycles the cursor is
non-decreasing.  When the batch's largest observed sequence number is at
least the current cursor, the new cursor equals it exactly. -/
theorem C2_cursor_monotone (agentID sessionChatID : String) (dbReady : Bool)
    (now : ℤ) (seq : ℕ) (fr : FetchResult) (items : List RawItem)
    (frs : List FetchResult) :
    seq ≤ (pollChatMessages agentID sessionChatID dbReady now seq fr).newSeq ∧
    (pollChatMessages agentID sessionChatID dbReady now seq
      (FetchResult.chat items)).newSeq = batchMaxSeq seq items ∧
    (∀ s ∈ observedSeqs items, (∀ t ∈ observedSeqs items, t ≤ s) → seq ≤ s →
      (pollChatMessages agentID sessionChatID dbReady now seq
        (FetchResult.chat items)).newSeq = s) ∧
    seq ≤ pollManySeq agentID sessionChatID dbReady now seq frs := by
  refine ⟨le_poll_newSeq _ _ _ _ _ _, poll_newSeq_chat _ _ _ _ _ _, ?_,
    le_pollManySeq _ _ _ _ _ _⟩
  intro s hs hmax hseq
  rw [poll_newSeq_chat, batchMaxSeq_eq_max_fold]
  exact le_antisymm (foldl_max_le _ _ _ hseq hmax) (mem_le_foldl_max _ _ _ hs)

/-- Witness for C2: a batch of a poison record (`seq` 7, missing encrypted
fields) and a low record (`seq` 3) advances the cursor from 2 to exactly
7. -/
theorem C2_cursor_monotone_witness :
    (pollChatMessages "a" "c" true 0 2
      (FetchResult.chat
        [RawItem.entry ⟨some 7, false, false, none, none, none⟩,
         RawItem.entry ⟨some 3, true, false, none, none, none⟩])).newSeq = 7 ∧
    2 ≤ (pollChatMessages "a" "c" true 0 2 FetchResult.fetchErr).newSeq ∧
    2 ≤ pollManySeq "a" "c" true 0 2
      [FetchResult.chat [RawItem.entry ⟨some 7, false, false, none, none, none⟩],
       FetchResult.fetchErr] := by
  refine ⟨?_, ?_, ?_⟩
  · exact (C2_cursor_monotone "a" "c" true 0 2 FetchResult.fetchErr
      [RawItem.entry ⟨some 7, false, false, none, none, none⟩,
       RawItem.entry ⟨some 3, true, false, none, none, none⟩] []).2.2.1 7
      (by decide) (by decide) (by decide)
  · exact (C2_cursor_monotone "a" "c" true 0 2 FetchResult.fetchErr [] []).1
  · exact (C2_cursor_monotone "a" "c" true 0 2 FetchResult.fetchErr []
      [FetchResult.chat [RawItem.entry ⟨some 7, false, false, none, none, none⟩],
       FetchResult.fetchErr]).2.2.2

/-- Per-item processing result, ignoring the cursor bookkeeping. -/
def entryMsg (a c : String) (n : ℤ) : RawItem → Option ProcessedMsg
  | RawItem.notMap => none
  | RawItem.entry e => processEntry a c n e

theorem foldl_pollStep_processed (a c : String) (d : Bool) (n : ℤ) :
    ∀ (items : List RawItem) (acc : PollOutcome),
      (items.foldl (pollStep a c d n) acc).processed =
        acc.processed ++ items.filterMap (entryMsg a c n) := by
  intro items
  induction items with
  | nil => intro acc; simp
  | cons it rest ih =>
    intro acc
    rw [List.foldl_cons, ih]
    cases it with
    | notMap => simp [pollStep, entryMsg, List.filterMap_cons]
    | entry e =>
      cases hp : processEntry a c n e with
      | none => simp [pollStep, entryMsg, hp, List.filterMap_cons]
      | some p =>
        cases hfb : feedbackOf a d p with
        | none => simp [pollStep, entryMsg, hp, hfb, List.filterMap_cons]
        | some item => simp [pollStep, entryMsg, hp, hfb, List.filterMap_cons]

theorem foldl_pollStep_feedback (a c : String) (d : Bool) (n : ℤ) :
    ∀ (items : List RawItem) (acc : PollOutcome),
      (items.foldl (pollStep a c d n) acc).feedback =
        acc.feedback ++
          (items.filterMap (entryMsg a c n)).filterMap (feedbackOf a d) := by
  intro items
  induction items with
  | nil => intro acc; simp
  | cons it rest ih =>
    intro acc
    rw [List.foldl_cons, ih]
    cases it with
    | notMap => simp [pollStep, entryMsg, List.filterMap_cons]
    | entry e =>
      cases hp : processEntry a c n e with
      | none => simp [pollStep, entryMsg, hp, List.filterMap_cons]
      | some p =>
        cases hfb : feedbackOf a d p with
        | none => simp [pollStep, entryMsg, hp, hfb, List.filterMap_cons]
        | some item => simp [pollStep, entryMsg, hp, hfb, List.filterMap_cons]

/-- The decrypted message of the C1/C6 examples: a text message sent by the
agent itself. -/
def ownDecoded : DecodedMsg :=
  ⟨some "a", some "text", some "hi", none, "raw", VoiceOutcome.malformed⟩

/-- A well-formed archive entry carrying `ownDecoded`. -/
def ownEntry : ArchiveEntry :=
  ⟨some 1, true, true, some ownDecoded, some "m1", some 0⟩

/-- C1 fails as stated: in a concrete cycle an agent-own text message is
routed to the similarity matcher as feedback, but it is also kept in the
per-conversation group forwarded to assistance — its content appears in the
agent's aggregated group, which the claim forbids. -/
theorem C1_counterexample :
    isAgentMessage "a" ownDecoded = true ∧
    (pollChatMessages "a" "a" true 0 0
        (FetchResult.chat [RawItem.entry ownEntry])).feedback
      = [⟨"a", "a", "m1", "hi", 0⟩] ∧
    "hi" ∈ groupContent
      (pollChatMessages "a" "a" true 0 0
        (FetchResult.chat [RawItem.entry ownEntry])) "a" := by
  decide

/-- C1 (amended): within one poll cycle, the messages routed to the
similarity matcher are exactly the processed messages classified as the
agent's own that carry a non-empty message id and non-empty content while
the store is configured — and every processed message, agent-own or not, is
additionally included in its per-conversation group forwarded to
assistance. -/
theorem C1_feedback_routing_and_grouping (agentID sessionChatID : String)
    (dbReady : Bool) (now : ℤ) (seq : ℕ) (items : List RawItem) :
    ((pollChatMessages agentID sessionChatID dbReady now seq
        (FetchResult.chat items)).feedback
      = (pollChatMessages agentID sessionChatID dbReady now seq
          (FetchResult.chat items)).processed.filterMap
            (feedbackOf agentID dbReady)) ∧
    (∀ p ∈ (pollChatMessages agentID sessionChatID dbReady now seq
        (FetchResult.chat items)).processed,
      p.content ∈ groupContent (pollChatMessages agentID sessionChatID
        dbReady now seq (FetchResult.chat items)) p.chatID) := by
  constructor
  · by_cases hi : items.isEmpty
    · simp only [pollChatMessages, if_pos hi]
      rfl
    · simp only [pollChatMessages, if_neg hi]
      rw [foldl_pollStep_feedback, foldl_pollStep_processed]
      simp
  · intro p hp
    unfold groupContent
    exact List.mem_map_of_mem _ (List.mem_filter.mpr ⟨hp, by simp⟩)

/-- Witness for the amended C1: the concrete agent-own message is routed as
feedback by the characterization and its content sits in the agent's
group. -/
theorem C1_feedback_routing_and_grouping_witness :
    ((pollChatMessages "a" "a" true 0 0
        (FetchResult.chat [RawItem.entry ownEntry])).feedback
      = (pollChatMessages "a" "a" true 0 0
          (FetchResult.chat [RawItem.entry ownEntry])).processed.filterMap
            (feedbackOf "a" true)) ∧
    (⟨"a", "a", "hi", "m1", 1, 0, true⟩ : ProcessedMsg).content ∈
      groupContent (pollChatMessages "a" "a" true 0 0
        (FetchResult.chat [RawItem.entry ownEntry]))
        (⟨"a", "a", "hi", "m1", 1, 0, true⟩ : ProcessedMsg).chatID := by
  refine ⟨(C1_feedback_routing_and_grouping "a" "a" true 0 0
    [RawItem.entry ownEntry]).1, ?_⟩
  exact (C1_feedback_routing_and_grouping "a" "a" true 0 0
    [RawItem.entry ownEntry]).2 ⟨"a", "a", "hi", "m1", 1, 0, true⟩ (by decide)

/-- C6 fails as stated: a message with `action == "send"` whose `from` field
names someone other than the agent is not classified as the agent's own,
although the claim's disjunction (`action == "send"` suffices) says it
should be. -/
theorem C6_counterexample :
    (⟨some "b", some "text", some "hi", some "send", "raw",
        VoiceOutcome.malformed⟩ : DecodedMsg).action = some "send" ∧
    isAgentMessage "a"
      ⟨some "b", some "text", some "hi", some "send", "raw",
        VoiceOutcome.malformed⟩ = false := by
  decide

/-- C6 (amended): a decrypted message is classified as the agent's own if
and only if its `from` field is present and equals the agent identifier; the
`action == "send"` branch re-checks `from`, so the action flag alone never
suffices. -/
theorem C6_classifier_from_only (agentID : String) (d : DecodedMsg) :
    isAgentMessage agentID d = true ↔ d.fromId = some agentID := by
  unfold isAgentMessage
  by_cases ha : d.action = some "send"
  · rw [if_pos ha]
    cases hf : d.fromId with
    | none => simp
    | some f => simp [beq_iff_eq]
  · rw [if_neg ha]
    cases hf : d.fromId with
    | none => simp
    | some f => simp [beq_iff_eq]

/-- Witness for the amended C6 at a concrete own message. -/
theorem C6_classifier_from_only_witness :
    isAgentMessage "a"
      ⟨some "a", some "text", some "hi", some "send", "raw",
        VoiceOutcome.malformed⟩ = true :=
  (C6_classifier_from_only "a"
    ⟨some "a", some "text", some "hi", some "send", "raw",
      VoiceOutcome.malformed⟩).mpr rfl

/-! ## Credential cache (`getAccessToken` / `getJSAPITicket`) -/

/-- The process-wide `TokenCache`: both credentials and their absolute
expiry instants (unix seconds). -/
structure TokenCache where
  accessToken : String
  jsapiTicket : String
  tokenExpireAt : ℤ
  ticketExpireAt : ℤ
deriving DecidableEq, Repr

/-- Parsed identity-endpoint response (`WeComAPIResponse`). -/
structure WeComAPIResponse where
  errcode : ℤ
  accessToken : String
  ticket : String
  expiresIn : ℤ
deriving DecidableEq, Repr

/-- One identity-endpoint call: transport/read/parse failure, or a parsed
response. -/
inductive FetchReply where
  | netErr
  | ok (r : WeComAPIResponse)
deriving DecidableEq, Repr

/-- TTL actually used: the server value, or the 7200 s default when the
server returned no positive `expires_in`. -/
def effectiveTTL (expiresIn : ℤ) : ℤ :=
  if expiresIn ≤ 0 then 7200 else expiresIn

/-- Early-refresh margin: a tenth of the TTL, but at least 60 s. -/
def earlyExpireMargin (ttl : ℤ) : ℤ :=
  if ttl / 10 < 60 then 60 else ttl / 10

/-- Expiry instant stored after a successful refresh at time `now`. -/
def refreshExpireAt (now expiresIn : ℤ) : ℤ :=
  now + (effectiveTTL expiresIn - earlyExpireMargin (effectiveTTL expiresIn))

/-- `getAccessToken`: fast path under the read lock when the cached token is
non-empty and unexpired; otherwise one network call, with the cache updated
only on a zero error code.  The returned flag records whether the network
was used. -/
def getAccessToken (now : ℤ) (cache : TokenCache) (reply : FetchReply) :
    Option String × TokenCache × Bool :=
  if cache.accessToken ≠ "" ∧ now < cache.tokenExpireAt then
    (some cache.accessToken, cache, false)
  else
    match reply with
    | FetchReply.netErr => (none, cache, true)
    | FetchReply.ok r =>
      if r.errcode ≠ 0 then (none, cache, true)
      else
        (some r.accessToken,
          { cache with
              accessToken := r.accessToken,
              tokenExpireAt := refreshExpireAt now r.expiresIn }, true)

/-- `getJSAPITicket`: fast path on the cached ticket; otherwise obtain an
access token (itself possibly cached), then one network call for the
ticket. -/
def getJSAPITicket (now : ℤ) (cache : TokenCache)
    (tokenReply ticketReply : FetchReply) :
    Option String × TokenCache × Bool :=
  if cache.jsapiTicket ≠ "" ∧ now < cache.ticketExpireAt then
    (some cache.jsapiTicket, cache, false)
  else
    match getAccessToken now cache tokenReply with
    | (none, cache1, net1) => (none, cache1, net1)
    | (some _, cache1, _) =>
      match ticketReply with
      | FetchReply.netErr => (none, cache1, true)
      | FetchReply.ok r =>
        if r.errcode ≠ 0 then (none, cache1, true)
        else
          (some r.ticket,
            { cache1 with
                jsapiTicket := r.ticket,
                ticketExpireAt := refreshExpireAt now r.expiresIn }, true)

theorem earlyExpireMargin_eq_max (ttl : ℤ) :
    earlyExpireMargin ttl = max (ttl / 10) 60 := by
  unfold earlyExpireMargin
  by_cases h : ttl / 10 < 60
  · rw [if_pos h]
    exact (max_eq_right (le_of_lt h)).symm
  · rw [if_neg h]
    exact (max_eq_left (le_of_not_lt h)).symm

/-- C7 (confirmed): a cache read with a non-empty, unexpired value returns
the cached value with no network call and no cache mutation; a successful
refresh stores expiry `now + (serverTTL − max(serverTTL / 10, 60 s))`; a
missing or zero server TTL falls back to the fixed 7200 s default. -/
theorem C7_credential_cache (now : ℤ) (cache : TokenCache)
    (reply tokenReply ticketReply : FetchReply) (r : WeComAPIResponse) :
    (cache.accessToken ≠ "" → now < cache.tokenExpireAt →
      getAccessToken now cache reply = (some cache.accessToken, cache, false)) ∧
    (cache.jsapiTicket ≠ "" → now < cache.ticketExpireAt →
      getJSAPITicket now cache tokenReply ticketReply
        = (some cache.jsapiTicket, cache, false)) ∧
    (¬ (cache.accessToken ≠ "" ∧ now < cache.tokenExpireAt) → r.errcode = 0 →
      (getAccessToken now cache (FetchReply.ok r)).2.1.tokenExpireAt
        = now + (effectiveTTL r.expiresIn
            - max (effectiveTTL r.expiresIn / 10) 60)) ∧
    (r.expiresIn = 0 → effectiveTTL r.expiresIn = 7200) := by
  refine ⟨?_, ?_, ?_, ?_⟩
  · intro h1 h2
    unfold getAccessToken
    rw [if_pos ⟨h1, h2⟩]
  · intro h1 h2
    unfold getJSAPITicket
    rw [if_pos ⟨h1, h2⟩]
  · intro hmiss herr
    unfold getAccessToken
    rw [if_neg hmiss]
    dsimp only
    rw [if_neg (by simp [herr])]
    simp only [refreshExpireAt, earlyExpireMargin_eq_max]
  · intro h0
    unfold effectiveTTL
    rw [h0]
    rfl

/-- Witness for C7: concrete fast-path reads return the cached values
untouched, and a cold refresh with server TTL 7200 stores expiry
`0 + (7200 − 720) = 6480`. -/
theorem C7_credential_cache_witness :
    getAccessToken 50 ⟨"tok", "tick", 100, 100⟩ FetchReply.netErr
      = (some "tok", ⟨"tok", "tick", 100, 100⟩, false) ∧
    getJSAPITicket 50 ⟨"tok", "tick", 100, 100⟩ FetchReply.netErr
        FetchReply.netErr
      = (some "tick", ⟨"tok", "tick", 100, 100⟩, false) ∧
    (getAccessToken 0 ⟨"", "", 0, 0⟩
        (FetchReply.ok ⟨0, "newtok", "newtick", 7200⟩)).2.1.tokenExpireAt
      = 0 + ((7200 : ℤ) - max ((7200 : ℤ) / 10) 60) ∧
    effectiveTTL 0 = 7200 := by
  refine ⟨?_, ?_, ?_, ?_⟩
  · exact (C7_credential_cache 50 ⟨"tok", "tick", 100, 100⟩ FetchReply.netErr
      FetchReply.netErr FetchReply.netErr ⟨0, "", "", 0⟩).1 (by decide)
      (by decide)
  · exact (C7_credential_cache 50 ⟨"tok", "tick", 100, 100⟩ FetchReply.netErr
      FetchReply.netErr FetchReply.netErr ⟨0, "", "", 0⟩).2.1 (by decide)
      (by decide)
  · have h := (C7_credential_cache 0 ⟨"", "", 0, 0⟩ FetchReply.netErr
      FetchReply.netErr FetchReply.netErr
      ⟨0, "newtok", "newtick", 7200⟩).2.2.1 (by decide) rfl
    rw [h]
    decide
  · exact (C7_credential_cache 0 ⟨"", "", 0, 0⟩ FetchReply.netErr
      FetchReply.netErr FetchReply.netErr ⟨0, "newtok", "newtick", 0⟩).2.2.2 rfl

/-! ## Connection registry (`WeComHub.Run`, `WeComClient.SendMessage`) -/

section AssocList

variable {α β : Type} [DecidableEq α]

/-- First-match association-list lookup (a Go map read). -/
def alookup : List (α × β) → α → Option β
  | [], _ => none
  | q :: rest, k => if q.1 = k then some q.2 else alookup rest k

/-- Key removal (a Go map `delete`). -/
def aremove : List (α × β) → α → List (α × β)
  | [], _ => []
  | q :: rest, k => if q.1 = k then aremove rest k else q :: aremove rest k

/-- In-place value update at a key. -/
def aupdate : List (α × β) → α → (β → β) → List (α × β)
  | [], _, _ => []
  | q :: rest, k, f =>
    if q.1 = k then (k, f q.2) :: aupdate rest k f
    else q :: aupdate rest k f

/-- Map assignment `m[k] = v`: replace when present, append when absent. -/
def ainsert (l : List (α × β)) (k : α) (v : β) : List (α × β) :=
  if (alookup l k).isSome then aupdate l k (fun _ => v) else l ++ [(k, v)]

theorem alookup_aremove_self (l : List (α × β)) (k : α) :
    alookup (aremove l k) k = none := by
  induction l with
  | nil => rfl
  | cons q rest ih =>
    by_cases h : q.1 = k
    · simp [aremove, h, ih]
    · simp [aremove, alookup, h, ih]

theorem alookup_aremove_ne (l : List (α × β)) (k k' : α) (h : k' ≠ k) :
    alookup (aremove l k) k' = alookup l k' := by
  induction l with
  | nil => rfl
  | cons q rest ih =>
    rw [aremove]
    by_cases hq : q.1 = k
    · rw [if_pos hq, ih, alookup,
        if_neg (fun hc => h (by rw [← hc, hq]))]
    · rw [if_neg hq, alookup, alookup]
      by_cases hq' : q.1 = k'
      · rw [if_pos hq', if_pos hq']
      · rw [if_neg hq', if_neg hq', ih]

theorem alookup_aupdate_self (l : List (α × β)) (k : α) (f : β → β) :
    alookup (aupdate l k f) k = (alookup l k).map f := by
  induction l with
  | nil => rfl
  | cons q rest ih =>
    by_cases h : q.1 = k
    · simp [aupdate, alookup, h]
    · simp [aupdate, alookup, h, ih]

theorem alookup_aupdate_ne (l : List (α × β)) (k : α) (f : β → β) (k' : α)
    (h : k' ≠ k) : alookup (aupdate l k f) k' = alookup l k' := by
  induction l with
  | nil => rfl
  | cons q rest ih =>
    rw [aupdate]
    by_cases hq : q.1 = k
    · rw [if_pos hq, alookup, alookup,
        if_neg (show ¬ k = k' from fun hc => h hc.symm),
        if_neg (fun hc => h (by rw [← hc, hq])), ih]
    · rw [if_neg hq, alookup, alookup]
      by_cases hq' : q.1 = k'
      · rw [if_pos hq', if_pos hq']
      · rw [if_neg hq', if_neg hq', ih]

theorem alookup_none_forall (l : List (α × β)) (k : α)
    (h : alookup l k = none) : ∀ q ∈ l, q.1 ≠ k := by
  induction l with
  | nil => intro q hq; cases hq
  | cons q rest ih =>
    intro q' hq'
    by_cases hqk : q.1 = k
    · rw [alookup, if_pos hqk] at h
      cases h
    · rw [alookup, if_neg hqk] at h
      rcases List.mem_cons.mp hq' with rfl | hmem
      · exact hqk
      · exact ih h q' hmem

theorem aupdate_id_of_none (l : List (α × β)) (k : α) (f : β → β)
    (h : alookup l k = none) : aupdate l k f = l := by
  induction l with
  | nil => rfl
  | cons q rest ih =>
    by_cases hq : q.1 = k
    · rw [alookup, if_pos hq] at h
      cases h
    · rw [alookup, if_neg hq] at h
      rw [aupdate, if_neg hq, ih h]

theorem aupdate_aupdate (l : List (α × β)) (k : α) (f g : β → β) :
    aupdate (aupdate l k f) k g = aupdate l k (fun b => g (f b)) := by
  induction l with
  | nil => rfl
  | cons q rest ih =>
    by_cases hq : q.1 = k
    · simp [aupdate, hq, ih]
    · simp [aupdate, hq, ih]

theorem alookup_append_right (l : List (α × β)) (k : α) (v : β)
    (h : alookup l k = none) : alookup (l ++ [(k, v)]) k = some v := by
  induction l with
  | nil => simp [alookup]
  | cons q rest ih =>
    by_cases hq : q.1 = k
    · rw [alookup, if_pos hq] at h
      cases h
    · rw [alookup, if_neg hq] at h
      rw [List.cons_append, alookup, if_neg hq]
      exact ih h

theorem aupdate_append (l l' : List (α × β)) (k : α) (f : β → β) :
    aupdate (l ++ l') k f = aupdate l k f ++ aupdate l' k f := by
  induction l with
  | nil => rfl
  | cons q rest ih =>
    by_cases hq : q.1 = k
    · simp [aupdate, hq, ih]
    · simp [aupdate, hq, ih]

theorem alookup_ainsert_self (l : List (α × β)) (k : α) (v : β) :
    alookup (ainsert l k v) k = some v := by
  unfold ainsert
  by_cases h : (alookup l k).isSome
  · rw [if_pos h]
    rw [alookup_aupdate_self]
    obtain ⟨b, hb⟩ := Option.isSome_iff_exists.mp h
    rw [hb]
    rfl
  · rw [if_neg h]
    exact alookup_append_right l k v (Option.not_isSome_iff_eq_none.mp h)

theorem ainsert_idem (l : List (α × β)) (k : α) (v : β) :
    ainsert (ainsert l k v) k v = ainsert l k v := by
  have hsome : (alookup (ainsert l k v) k).isSome := by
    rw [alookup_ainsert_self]
    rfl
  have hstep : ainsert (ainsert l k v) k v
      = aupdate (ainsert l k v) k (fun _ => v) := by
    conv_lhs => rw [ainsert]
    rw [if_pos hsome]
  rw [hstep]
  by_cases h : (alookup l k).isSome
  · rw [ainsert, if_pos h, aupdate_aupdate]
  · rw [ainsert, if_neg h, aupdate_append,
      aupdate_id_of_none l k _ (Option.not_isSome_iff_eq_none.mp h)]
    simp [aupdate]

theorem alookup_split (l : List (α × β)) (k : α) (v : β)
    (h : alookup l k = some v) :
    ∃ l₁ l₂, l = l₁ ++ (k, v) :: l₂ ∧ ∀ q ∈ l₁, q.1 ≠ k := by
  induction l with
  | nil => cases h
  | cons q rest ih =>
    by_cases hq : q.1 = k
    · rw [alookup, if_pos hq] at h
      refine ⟨[], rest, ?_, by intro q' hq'; cases hq'⟩
      have : q = (k, v) := by
        cases q
        simp at hq h
        simp [hq, h]
      rw [this]
      rfl
    · rw [alookup, if_neg hq] at h
      obtain ⟨l₁, l₂, hl, hk⟩ := ih h
      refine ⟨q :: l₁, l₂, by rw [List.cons_append, hl], ?_⟩
      intro q' hq'
      rcases List.mem_cons.mp hq' with rfl | hmem
      · exact hq
      · exact hk q' hmem

end AssocList

/-- Frames placed on a session's outbound channel. -/
inductive Payload where
  | authSuccess (agentID : String)
  | broadcastMsg (s : String)
  | event (s : String)
deriving DecidableEq, Repr

/-- Capacity of a session's outbound channel (`make(chan []byte, 256)`). -/
def sendQueueCap : ℕ := 256

/-- One live session (`WeComClient`) as seen by the registry: its agent id,
outbound queue, whether that queue has been closed, whether `pollStop` has
been closed, and how many poller tasks have been spawned for it. -/
structure HubClient where
  agentID : String
  send : List Payload
  sendClosed : Bool
  pollStopClosed : Bool
  pollerStarts : ℕ
deriving DecidableEq, Repr

/-- Errors returned by `WeComClient.SendMessage`. -/
inductive SendErr where
  | marshalErr
  | bufferFull
deriving DecidableEq, Repr

/-- `WeComClient.SendMessage`: JSON-marshal the event (failures modelled as
the `Except.error` input), then a non-blocking channel send — enqueue when
the 256-slot queue has room, otherwise return `ErrSendBufferFull` leaving
everything unchanged. -/
def sendMessage (c : HubClient) (m : Except Unit Payload) :
    Option SendErr × HubClient :=
  match m with
  | Except.error _ => (some SendErr.marshalErr, c)
  | Except.ok p =>
    if c.send.length < sendQueueCap then
      (none, { c with send := c.send ++ [p] })
    else
      (some SendErr.bufferFull, c)

/-- The registry state: a heap of sessions (keyed by an identity) and the
`Clients` map from agent id to session. -/
structure HubState where
  sessions : List (ℕ × HubClient)
  clients : List (String × ℕ)
deriving DecidableEq, Repr

/-- Effect of the register branch of `WeComHub.Run` on the registered
session: enqueue the `auth_success` acknowledgement (the send result is
discarded) and spawn one more poller task. -/
def regUpd (c0 : HubClient) : HubClient :=
  let c1 := (sendMessage c0 (Except.ok (Payload.authSuccess c0.agentID))).2
  { c1 with pollerStarts := c1.pollerStarts + 1 }

/-- Register branch of `WeComHub.Run` for session `sid`: store it in the map
under its agent id, acknowledge, start its poller. -/
def registerStep (st : HubState) (sid : ℕ) : HubState :=
  match alookup st.sessions sid with
  | none => st
  | some c =>
    { sessions := aupdate st.sessions sid regUpd,
      clients := ainsert st.clients c.agentID sid }

/-- Unregister branch of `WeComHub.Run`: when the session's agent id is in
the map, delete the key, close the session's outbound queue and signal its
poller to stop (`stopPolling` closes `pollStop` once); otherwise a no-op. -/
def unregisterStep (st : HubState) (sid : ℕ) : HubState :=
  match alookup st.sessions sid with
  | none => st
  | some c =>
    if (alookup st.clients c.agentID).isSome then
      { sessions := aupdate st.sessions sid
          (fun c0 => { c0 with sendClosed := true, pollStopClosed := true }),
        clients := aremove st.clients c.agentID }
    else st

/-- Broadcast handling of one map entry: enqueue when the session's queue
has room, otherwise close the queue and delete the map entry — without
touching the session's `pollStop`. -/
def broadcastClient (msg : String) (st : HubState) (kv : String × ℕ) :
    HubState :=
  match alookup st.sessions kv.2 with
  | none => st
  | some c =>
    if c.send.length < sendQueueCap then
      let upd := aupdate st.sessions kv.2 (fun c0 =>
        { c0 with send := c0.send ++ [Payload.broadcastMsg msg] })
      { st with sessions := upd }
    else
      { sessions := aupdate st.sessions kv.2
          (fun c0 => { c0 with sendClosed := true }),
        clients := aremove st.clients kv.1 }

/-- Broadcast branch of `WeComHub.Run`: best-effort fan-out over the map. -/
def broadcastStep (st : HubState) (msg : String) : HubState :=
  st.clients.foldl (broadcastClient msg) st

/-- A unicast `SendMessage` to the session `sid`, lifted to the registry
state: only that session's queue is touched. -/
def sysSendMessage (st : HubState) (sid : ℕ) (m : Except Unit Payload) :
    HubState :=
  let upd := aupdate st.sessions sid (fun c => (sendMessage c m).2)
  { st with sessions := upd }

theorem broadcastClient_sessions_ne (msg : String) (s : HubState)
    (kv : String × ℕ) (sid : ℕ) (h : kv.2 ≠ sid) :
    alookup (broadcastClient msg s kv).sessions sid
      = alookup s.sessions sid := by
  unfold broadcastClient
  cases hl : alookup s.sessions kv.2 with
  | none => rfl
  | some c =>
    dsimp only
    by_cases hf : c.send.length < sendQueueCap
    · rw [if_pos hf]
      exact alookup_aupdate_ne _ _ _ _ (Ne.symm h)
    · rw [if_neg hf]
      exact alookup_aupdate_ne _ _ _ _ (Ne.symm h)

theorem broadcastClient_clients_ne (msg : String) (s : HubState)
    (kv : String × ℕ) (aid : String) (h : kv.1 ≠ aid) :
    alookup (broadcastClient msg s kv).clients aid
      = alookup s.clients aid := by
  unfold broadcastClient
  cases hl : alookup s.sessions kv.2 with
  | none => rfl
  | some c =>
    dsimp only
    by_cases hf : c.send.length < sendQueueCap
    · rw [if_pos hf]
    · rw [if_neg hf]
      exact alookup_aremove_ne _ _ _ (Ne.symm h)

theorem broadcastClient_clients_none (msg : String) (s : HubState)
    (kv : String × ℕ) (aid : String) (h : alookup s.clients aid = none) :
    alookup (broadcastClient msg s kv).clients aid = none := by
  unfold broadcastClient
  cases hl : alookup s.sessions kv.2 with
  | none => exact h
  | some c =>
    dsimp only
    by_cases hf : c.send.length < sendQueueCap
    · rw [if_pos hf]
      exact h
    · rw [if_neg hf]
      by_cases hk : aid = kv.1
      · rw [hk]
        exact alookup_aremove_self _ _
      · rw [alookup_aremove_ne _ _ _ hk]
        exact h

theorem foldl_broadcast_sessions (msg : String) :
    ∀ (l : List (String × ℕ)) (s : HubState) (sid : ℕ),
      (∀ kv ∈ l, kv.2 ≠ sid) →
      alookup (l.foldl (broadcastClient msg) s).sessions sid
        = alookup s.sessions sid := by
  intro l
  induction l with
  | nil => intro s sid _; rfl
  | cons kv rest ih =>
    intro s sid h
    rw [List.foldl_cons,
      ih _ _ (fun q hq => h q (List.mem_cons_of_mem kv hq)),
      broadcastClient_sessions_ne msg s kv sid (h kv (List.mem_cons_self kv rest))]

theorem foldl_broadcast_clients (msg : String) :
    ∀ (l : List (String × ℕ)) (s : HubState) (aid : String),
      (∀ kv ∈ l, kv.1 ≠ aid) →
      alookup (l.foldl (broadcastClient msg) s).clients aid
        = alookup s.clients aid := by
  intro l
  induction l with
  | nil => intro s aid _; rfl
  | cons kv rest ih =>
    intro s aid h
    rw [List.foldl_cons,
      ih _ _ (fun q hq => h q (List.mem_cons_of_mem kv hq)),
      broadcastClient_clients_ne msg s kv aid (h kv (List.mem_cons_self kv rest))]

theorem foldl_broadcast_clients_none (msg : String) :
    ∀ (l : List (String × ℕ)) (s : HubState) (aid : String),
      alookup s.clients aid = none →
      alookup (l.foldl (broadcastClient msg) s).clients aid = none := by
  intro l
  induction l with
  | nil => intro s aid h; exact h
  | cons kv rest ih =>
    intro s aid h
    rw [List.foldl_cons]
    exact ih _ _ (broadcastClient_clients_none msg s kv aid h)

theorem broadcastClient_eq_full (msg : String) (s : HubState)
    (kv : String × ℕ) (c : HubClient)
    (hc : alookup s.sessions kv.2 = some c)
    (hfull : ¬ c.send.length < sendQueueCap) :
    broadcastClient msg s kv
      = { sessions := (aupdate s.sessions kv.2
            (fun c0 => { c0 with sendClosed := true })),
          clients := aremove s.clients kv.1 } := by
  unfold broadcastClient
  rw [hc]
  dsimp only
  rw [if_neg hfull]

theorem broadcastClient_eq_room (msg : String) (s : HubState)
    (kv : String × ℕ) (c : HubClient)
    (hc : alookup s.sessions kv.2 = some c)
    (hroom : c.send.length < sendQueueCap) :
    broadcastClient msg s kv
      = { s with sessions := (aupdate s.sessions kv.2
            (fun c0 =>
              { c0 with send := c0.send ++ [Payload.broadcastMsg msg] })) } := by
  unfold broadcastClient
  rw [hc]
  dsimp only
  rw [if_pos hroom]

/-- C8 (amended): when the Hub broadcasts to a session whose outbound queue
is full, the broadcaster does not enqueue anything for it; the session is
removed from the live map and its outbound queue is closed, but — unlike the
unregister path — its Poller is not signalled to stop.  Sessions with queue
room receive the frame and stay registered. -/
theorem C8_broadcast_drop (st : HubState) (msg : String) (aid : String)
    (sid : ℕ) (c : HubClient)
    (hkeys : (st.clients.map Prod.fst).Nodup)
    (hvals : (st.clients.map Prod.snd).Nodup)
    (haid : alookup st.clients aid = some sid)
    (hc : alookup st.sessions sid = some c) :
    (¬ c.send.length < sendQueueCap →
      alookup (broadcastStep st msg).clients aid = none ∧
      alookup (broadcastStep st msg).sessions sid
        = some { c with sendClosed := true }) ∧
    (c.send.length < sendQueueCap →
      alookup (broadcastStep st msg).clients aid = some sid ∧
      alookup (broadcastStep st msg).sessions sid
        = some { c with send := c.send ++ [Payload.broadcastMsg msg] }) := by
  obtain ⟨l₁, l₂, hsplit, hl₁⟩ := alookup_split st.clients aid sid haid
  have hmap : ((l₁.map Prod.snd) ++ sid :: (l₂.map Prod.snd)).Nodup := by
    have := hvals
    rw [hsplit] at this
    simpa using this
  have hdis := (List.nodup_append.mp hmap).2.2
  have hnd₂ := (List.nodup_cons.mp (List.nodup_append.mp hmap).2.1)
  have hsid₁ : ∀ kv ∈ l₁, kv.2 ≠ sid := by
    intro kv hkv he
    exact hdis (he ▸ List.mem_map_of_mem Prod.snd hkv)
      (List.mem_cons_self _ _)
  have hsid₂ : ∀ kv ∈ l₂, kv.2 ≠ sid := by
    intro kv hkv he
    exact hnd₂.1 (he ▸ List.mem_map_of_mem Prod.snd hkv)
  have hkmap : ((l₁.map Prod.fst) ++ aid :: (l₂.map Prod.fst)).Nodup := by
    have := hkeys
    rw [hsplit] at this
    simpa using this
  have hknd₂ := (List.nodup_cons.mp (List.nodup_append.mp hkmap).2.1)
  have haid₂ : ∀ kv ∈ l₂, kv.1 ≠ aid := by
    intro kv hkv he
    exact hknd₂.1 (he ▸ List.mem_map_of_mem Prod.fst hkv)
  have hbs : broadcastStep st msg
      = l₂.foldl (broadcastClient msg)
          (broadcastClient msg (l₁.foldl (broadcastClient msg) st)
            (aid, sid)) := by
    rw [broadcastStep, hsplit, List.foldl_append, List.foldl_cons]
  have hs₁sess :
      alookup (l₁.foldl (broadcastClient msg) st).sessions sid = some c := by
    rw [foldl_broadcast_sessions msg l₁ st sid hsid₁, hc]
  constructor
  · intro hfull
    have hpiv : broadcastClient msg (l₁.foldl (broadcastClient msg) st)
        (aid, sid)
        = { sessions :=
              (aupdate (l₁.foldl (broadcastClient msg) st).sessions sid
                (fun c0 => { c0 with sendClosed := true })),
            clients :=
              (aremove (l₁.foldl (broadcastClient msg) st).clients aid) } :=
      broadcastClient_eq_full msg _ (aid, sid) c hs₁sess hfull
    constructor
    · rw [hbs, hpiv]
      exact foldl_broadcast_clients_none msg l₂ _ aid
        (alookup_aremove_self _ _)
    · rw [hbs, hpiv, foldl_broadcast_sessions msg l₂ _ sid hsid₂]
      dsimp only
      rw [alookup_aupdate_self, hs₁sess]
      rfl
  · intro hroom
    have hs₁cli :
        alookup (l₁.foldl (broadcastClient msg) st).clients aid = some sid := by
      rw [foldl_broadcast_clients msg l₁ st aid hl₁, haid]
    have hpiv : broadcastClient msg (l₁.foldl (broadcastClient msg) st)
        (aid, sid)
        = { l₁.foldl (broadcastClient msg) st with
            sessions :=
              (aupdate (l₁.foldl (broadcastClient msg) st).sessions sid
                (fun c0 =>
                  { c0 with send := c0.send ++ [Payload.broadcastMsg msg] })) } :=
      broadcastClient_eq_room msg _ (aid, sid) c hs₁sess hroom
    constructor
    · rw [hbs, hpiv, foldl_broadcast_clients msg l₂ _ aid haid₂]
      exact hs₁cli
    · rw [hbs, hpiv, foldl_broadcast_sessions msg l₂ _ sid hsid₂]
      dsimp only
      rw [alookup_aupdate_self, hs₁sess]
      rfl

/-- A session whose outbound queue is full. -/
def fullClient : HubClient :=
  ⟨"a", List.replicate 256 (Payload.event "x"), false, false, 1⟩

/-- A registry holding only the full session. -/
def fullHub : HubState := ⟨[(0, fullClient)], [("a", 0)]⟩

set_option maxRecDepth 4096 in
/-- C8 fails as stated: broadcasting into a full queue removes the session
from the live map and closes its outbound queue, but its Poller is never
signalled to stop (`pollStopClosed` stays `false`), although the claim's
notion of unregistration requires that signal. -/
theorem C8_counterexample :
    alookup (broadcastStep fullHub "m").clients "a" = none ∧
    alookup (broadcastStep fullHub "m").sessions 0
      = some { fullClient with sendClosed := true } ∧
    ({ fullClient with sendClosed := true } : HubClient).pollStopClosed
      = false := by
  decide

set_option maxRecDepth 4096 in
/-- Witness for the amended C8: the concrete full session is dropped with
its queue closed and poller untouched, and a one-slot-free session receives
the frame and stays registered. -/
theorem C8_broadcast_drop_witness :
    (alookup (broadcastStep fullHub "mm").clients "a" = none ∧
      alookup (broadcastStep fullHub "mm").sessions 0
        = some { fullClient with sendClosed := true }) ∧
    (alookup (broadcastStep ⟨[(0, ⟨"b", [], false, false, 1⟩)], [("b", 0)]⟩
        "mm").clients "b" = some 0 ∧
      alookup (broadcastStep ⟨[(0, ⟨"b", [], false, false, 1⟩)], [("b", 0)]⟩
          "mm").sessions 0
        = some { (⟨"b", [], false, false, 1⟩ : HubClient) with
            send := [] ++ [Payload.broadcastMsg "mm"] }) := by
  constructor
  · exact (C8_broadcast_drop fullHub "mm" "a" 0 fullClient (by decide)
      (by decide) rfl rfl).1 (by decide)
  · exact (C8_broadcast_drop ⟨[(0, ⟨"b", [], false, false, 1⟩)], [("b", 0)]⟩
      "mm" "b" 0 ⟨"b", [], false, false, 1⟩ (by decide) (by decide) rfl rfl).2
      (by decide)

/-- A fresh session with an empty queue, not yet in the map. -/
def regHub : HubState := ⟨[(0, ⟨"a", [], false, false, 0⟩)], []⟩

/-- C9 fails as stated: processing the same register event twice does not
leave the registry as after processing it once — the session ends up with
two queued connect acknowledgements and two spawned poller tasks. -/
theorem C9_counterexample :
    registerStep (registerStep regHub 0) 0 ≠ registerStep regHub 0 ∧
    alookup (registerStep regHub 0).sessions 0
      = some ⟨"a", [Payload.authSuccess "a"], false, false, 1⟩ ∧
    alookup (registerStep (registerStep regHub 0) 0).sessions 0
      = some ⟨"a", [Payload.authSuccess "a", Payload.authSuccess "a"],
          false, false, 2⟩ := by
  decide

/-- C9 (amended): registering the same session twice is idempotent on the
live map, but each register enqueues another connect acknowledgement and
spawns another poller task; an unregister for a session whose agent key is
absent from the map (or for an unknown session) is a no-op. -/
theorem C9_register_unregister (st : HubState) (sid : ℕ) (c : HubClient)
    (hc : alookup st.sessions sid = some c)
    (hroom : c.send.length + 1 < sendQueueCap) :
    alookup (registerStep st sid).sessions sid
      = some { c with send := c.send ++ [Payload.authSuccess c.agentID],
                      pollerStarts := c.pollerStarts + 1 } ∧
    alookup (registerStep (registerStep st sid) sid).sessions sid
      = some { c with send := c.send ++ [Payload.authSuccess c.agentID,
                        Payload.authSuccess c.agentID],
                      pollerStarts := c.pollerStarts + 2 } ∧
    (registerStep (registerStep st sid) sid).clients
      = (registerStep st sid).clients ∧
    (∀ sid' c', alookup st.sessions sid' = some c' →
      alookup st.clients c'.agentID = none → unregisterStep st sid' = st) ∧
    (∀ sid', alookup st.sessions sid' = none → unregisterStep st sid' = st) := by
  have hreg : regUpd c
      = { c with send := c.send ++ [Payload.authSuccess c.agentID],
                 pollerStarts := c.pollerStarts + 1 } := by
    unfold regUpd sendMessage
    dsimp only
    rw [if_pos (show c.send.length < sendQueueCap by omega)]
  have hrStep : ∀ (s : HubState) (c' : HubClient),
      alookup s.sessions sid = some c' →
      registerStep s sid
        = { sessions := aupdate s.sessions sid regUpd,
            clients := ainsert s.clients c'.agentID sid } := by
    intro s c' h
    unfold registerStep
    rw [h]
  have hr1 := hrStep st c hc
  have hr1sess : alookup (registerStep st sid).sessions sid
      = some (regUpd c) := by
    rw [hr1]
    dsimp only
    rw [alookup_aupdate_self, hc]
    rfl
  have hreg2 : regUpd (regUpd c)
      = { c with send := c.send ++ [Payload.authSuccess c.agentID,
                   Payload.authSuccess c.agentID],
                 pollerStarts := c.pollerStarts + 2 } := by
    rw [hreg]
    unfold regUpd sendMessage
    dsimp only
    rw [if_pos (show (c.send ++ [Payload.authSuccess c.agentID]).length
      < sendQueueCap by simp; omega)]
    simp [List.append_assoc]
  have hr2 := hrStep (registerStep st sid) (regUpd c) hr1sess
  refine ⟨?_, ?_, ?_, ?_, ?_⟩
  · rw [hr1sess, hreg]
  · rw [hr2]
    dsimp only
    rw [alookup_aupdate_self, hr1sess]
    dsimp only [Option.map]
    rw [hreg2]
  · rw [hr2]
    dsimp only
    have hag : (regUpd c).agentID = c.agentID := by
      rw [hreg]
    rw [hag, hr1]
    dsimp only
    exact ainsert_idem _ _ _
  · intro sid' c' hc' hnone
    unfold unregisterStep
    rw [hc']
    dsimp only
    rw [if_neg (by rw [hnone]; simp)]
  · intro sid' hnone
    unfold unregisterStep
    rw [hnone]

/-- Witness for the amended C9 at the concrete fresh registry. -/
theorem C9_register_unregister_witness :
    alookup (registerStep regHub 0).sessions 0
      = some { (⟨"a", [], false, false, 0⟩ : HubClient) with
          send := [] ++ [Payload.authSuccess "a"], pollerStarts := 0 + 1 } ∧
    (registerStep (registerStep regHub 0) 0).clients
      = (registerStep regHub 0).clients ∧
    unregisterStep regHub 0 = regHub := by
  refine ⟨?_, ?_, ?_⟩
  · exact (C9_register_unregister regHub 0 ⟨"a", [], false, false, 0⟩ rfl
      (by decide)).1
  · exact (C9_register_unregister regHub 0 ⟨"a", [], false, false, 0⟩ rfl
      (by decide)).2.2.1
  · exact (C9_register_unregister regHub 0 ⟨"a", [], false, false, 0⟩ rfl
      (by decide)).2.2.2.1 0 ⟨"a", [], false, false, 0⟩ rfl rfl

/-- C10 (confirmed): a unicast `SendMessage` never blocks: with queue room
the serialized event is appended and `nil` is returned, otherwise
`ErrSendBufferFull` is returned with the queue unchanged; in either case the
live map, the queue-closed flag and the poller stop signal are untouched —
a failed unicast send does not disconnect or unregister the session. -/
theorem C10_send_message (c : HubClient) (p : Payload) (st : HubState)
    (sid : ℕ) :
    (c.send.length < sendQueueCap →
      sendMessage c (Except.ok p) = (none, { c with send := c.send ++ [p] })) ∧
    (¬ c.send.length < sendQueueCap →
      sendMessage c (Except.ok p) = (some SendErr.bufferFull, c)) ∧
    (sysSendMessage st sid (Except.ok p)).clients = st.clients ∧
    (∀ c0, alookup st.sessions sid = some c0 →
      alookup (sysSendMessage st sid (Except.ok p)).sessions sid
        = some (sendMessage c0 (Except.ok p)).2 ∧
      (sendMessage c0 (Except.ok p)).2.sendClosed = c0.sendClosed ∧
      (sendMessage c0 (Except.ok p)).2.pollStopClosed = c0.pollStopClosed ∧
      (sendMessage c0 (Except.ok p)).2.agentID = c0.agentID) := by
  refine ⟨?_, ?_, ?_, ?_⟩
  · intro h
    unfold sendMessage
    dsimp only
    rw [if_pos h]
  · intro h
    unfold sendMessage
    dsimp only
    rw [if_neg h]
  · rfl
  · intro c0 h0
    refine ⟨?_, ?_, ?_, ?_⟩
    · unfold sysSendMessage
      dsimp only
      rw [alookup_aupdate_self, h0]
      rfl
    · unfold sendMessage
      dsimp only
      split <;> rfl
    · unfold sendMessage
      dsimp only
      split <;> rfl
    · unfold sendMessage
      dsimp only
      split <;> rfl

set_option maxRecDepth 4096 in
/-- Witness for C10: an empty queue accepts the frame; the full session gets
`ErrSendBufferFull` with nothing changed, and the lifted send leaves the map
alone. -/
theorem C10_send_message_witness :
    sendMessage ⟨"a", [], false, false, 0⟩ (Except.ok (Payload.event "e"))
      = (none, { (⟨"a", [], false, false, 0⟩ : HubClient) with
          send := [] ++ [Payload.event "e"] }) ∧
    sendMessage fullClient (Except.ok (Payload.event "e"))
      = (some SendErr.bufferFull, fullClient) ∧
    (sysSendMessage fullHub 0 (Except.ok (Payload.event "e"))).clients
      = fullHub.clients := by
  refine ⟨?_, ?_, ?_⟩
  · exact (C10_send_message ⟨"a", [], false, false, 0⟩ (Payload.event "e")
      fullHub 0).1 (by decide)
  · exact (C10_send_message fullClient (Payload.event "e") fullHub 0).2.1
      (by decide)
  · exact (C10_send_message fullClient (Payload.event "e") fullHub 0).2.2.1

end SidebarServer
